import Mathlib

/-!
Verification of the Detector component of a cosmic-ray detection program.

The Detector (src/detector.rs) owns a byte buffer (`detector_mass`) together
with a sentinel byte (`default`).  Bytes are modelled as natural numbers, the
buffer as a list, and the volatile reads and writes as plain reads and writes
that return the memory unchanged (their compiler-level non-elidability is a
meta property outside the embedding).  The sequential scanning mode is
embedded directly; the rayon parallel mode, whose scheduling is
nondeterministic, is embedded as a relation capturing the contract of
`position_any`.
-/

namespace CosmicRay

/-- Shallow embedding of the `Detector` struct (src/detector.rs, lines 15-18):
the sentinel byte `default` and the owned byte buffer `detector_mass`. -/
structure Detector where
  default : Nat
  detector_mass : List Nat

/-- Rust `Iterator::position` specialised to a byte list: the index of the
first element satisfying `p`, counting from the front, or none. -/
def position (p : Nat → Bool) : List Nat → Option Nat
  | [] => none
  | b :: rest => if p b then some 0 else (position p rest).map (fun i => i + 1)

/-- `Detector::new` (detector.rs lines 21-26): a buffer of exactly
`capacity_bytes` copies of `default`. -/
def Detector.new (default : Nat) (capacity_bytes : Nat) : Detector :=
  { default := default, detector_mass := List.replicate capacity_bytes default }

/-- `Detector::len` (detector.rs lines 68-70). -/
def Detector.len (d : Detector) : Nat :=
  d.detector_mass.length

/-- `Detector::write` (detector.rs lines 84-94): overwrites every element of
the buffer with `value` (volatile stores; the parallel and sequential variants
both store `value` into every cell). -/
def Detector.write (d : Detector) (value : Nat) : Detector :=
  { d with detector_mass := d.detector_mass.map (fun _ => value) }

/-- `Detector::position_of_changed_element` in the sequential mode
(detector.rs lines 104-107): first index whose (volatile) read differs from
the default. -/
def Detector.position_of_changed_element (d : Detector) : Option Nat :=
  position (fun r => r != d.default) d.detector_mass

/-- `Detector::get` (detector.rs lines 130-134): bounds-checked volatile
read of a single byte. -/
def Detector.get (d : Detector) (index : Nat) : Option Nat :=
  d.detector_mass.get? index

/-- `Detector::position_and_value_of_changed_element` (detector.rs
lines 111-116). -/
def Detector.position_and_value_of_changed_element (d : Detector) :
    Option (Nat × Nat) :=
  match d.position_of_changed_element with
  | some i => (d.get i).map (fun v => (i, v))
  | none => none

/-- `Detector::is_intact` (detector.rs lines 73-75). -/
def Detector.is_intact (d : Detector) : Bool :=
  d.position_and_value_of_changed_element.isNone

/-- `Detector::reset` (detector.rs lines 119-127): a priming write of 42 when
the default is zero, followed by a write of the default value. -/
def Detector.reset (d : Detector) : Detector :=
  (if d.default = 0 then d.write 42 else d).write d.default

/-- `NonZeroUsize::new`: some for a positive argument, none for zero
(used by the CLI layer, config.rs line 87). -/
def nonZeroUsizeNew (n : Nat) : Option Nat :=
  if n = 0 then none else some n

/-- Integer branch of `parse_memory_string` (config.rs lines 85-87): an input
that already parses as a plain `usize` value `t` is accepted iff nonzero,
otherwise the parse error for zero is returned. -/
def parse_memory_string_integer (t : Nat) : Except String Nat :=
  match nonZeroUsizeNew t with
  | some n => Except.ok n
  | none => Except.error "zero is not a valid value"

/-- State-passing form of the sequential scan: each cell is read with
`read_volatile`, which yields the value and leaves the memory unchanged; the
traversal threads the buffer through explicitly. -/
def volatileScan (default : Nat) : List Nat → Option Nat × List Nat
  | [] => (none, [])
  | b :: rest =>
    if b != default then (some 0, b :: rest)
    else
      let (r, rest1) := volatileScan default rest
      (r.map (fun i => i + 1), b :: rest1)

/-- State-passing form of `position_of_changed_element`. -/
def Detector.position_of_changed_elementS (d : Detector) :
    Option Nat × Detector :=
  let (r, m) := volatileScan d.default d.detector_mass
  (r, { d with detector_mass := m })

/-- State-passing form of `get`: a volatile read returns the byte and the
unchanged detector. -/
def Detector.getS (d : Detector) (index : Nat) : Option Nat × Detector :=
  (d.detector_mass.get? index, d)

/-- State-passing form of `position_and_value_of_changed_element`. -/
def Detector.position_and_value_of_changed_elementS (d : Detector) :
    Option (Nat × Nat) × Detector :=
  let (r, d1) := d.position_of_changed_elementS
  match r with
  | some i =>
    let (v, d2) := d1.getS i
    (v.map (fun x => (i, x)), d2)
  | none => (none, d1)

/-- State-passing form of `is_intact`. -/
def Detector.is_intactS (d : Detector) : Bool × Detector :=
  let (r, d1) := d.position_and_value_of_changed_elementS
  (r.isNone, d1)

/-- State-passing form of `len`. -/
def Detector.lenS (d : Detector) : Nat × Detector :=
  (d.detector_mass.length, d)

/-- State-passing form of `default`. -/
def Detector.defaultS (d : Detector) : Nat × Detector :=
  (d.default, d)

/-- Contract of the rayon parallel scan `position_any` (detector.rs
lines 98-102): it returns some index at which the byte differs from the
default, with no ordering guarantee, and none exactly when every byte equals
the default. -/
def par_position_any_spec (d : Detector) (r : Option Nat) : Prop :=
  match r with
  | none => ∀ b ∈ d.detector_mass, b = d.default
  | some i => ∃ b, d.get i = some b ∧ b ≠ d.default

/-! Helper lemmas about the sequential scan. -/

theorem position_eq_none_iff (p : Nat → Bool) (l : List Nat) :
    position p l = none ↔ ∀ b ∈ l, p b = false := by
  induction l with
  | nil => simp [position]
  | cons b rest ih =>
    by_cases h : p b
    · simp [position, h]
    · simp [position, h, ih]

theorem position_eq_some_iff (p : Nat → Bool) (l : List Nat) (i : Nat) :
    position p l = some i ↔
      ((∃ b, l.get? i = some b ∧ p b = true) ∧
       ∀ j, j < i → ∃ b, l.get? j = some b ∧ p b = false) := by
  induction l generalizing i with
  | nil => simp [position]
  | cons b rest ih =>
    by_cases h : p b = true
    · cases i with
      | zero => simp [position, h]
      | succ k =>
        simp only [position, h, if_true]
        constructor
        · intro hc
          cases hc
        · rintro ⟨-, hall⟩
          obtain ⟨c, hc, hpc⟩ := hall 0 (Nat.succ_pos k)
          simp only [List.get?] at hc
          cases hc
          rw [h] at hpc
          cases hpc
    · have h' : p b = false := by
        cases hb : p b
        · rfl
        · exact absurd hb h
      cases i with
      | zero =>
        simp only [position, h', if_false, Bool.false_eq_true]
        constructor
        · intro hc
          simp only [Option.map_eq_some'] at hc
          obtain ⟨a, -, ha⟩ := hc
          cases ha
        · rintro ⟨⟨c, hc, hpc⟩, -⟩
          simp only [List.get?] at hc
          cases hc
          rw [hpc] at h'
          cases h'
      | succ k =>
        simp only [position, h', if_false, Bool.false_eq_true]
        have hmap : (position p rest).map (fun i => i + 1) = some (k + 1) ↔
            position p rest = some k := by
          cases hr : position p rest with
          | none => simp
          | some m => simp
        rw [hmap, ih k]
        constructor
        · rintro ⟨hex, hall⟩
          refine ⟨by simpa using hex, ?_⟩
          intro j hj
          cases j with
          | zero =>
            exact ⟨b, rfl, h'⟩
          | succ m =>
            obtain ⟨c, hc, hpc⟩ := hall m (Nat.lt_of_succ_lt_succ hj)
            exact ⟨c, by simpa using hc, hpc⟩
        · rintro ⟨hex, hall⟩
          refine ⟨by simpa using hex, ?_⟩
          intro j hj
          obtain ⟨c, hc, hpc⟩ := hall (j + 1) (Nat.succ_lt_succ hj)
          exact ⟨c, by simpa using hc, hpc⟩

theorem position_some_mem (p : Nat → Bool) (l : List Nat) (i : Nat)
    (h : position p l = some i) : ∃ b, l.get? i = some b ∧ p b = true :=
  ((position_eq_some_iff p l i).mp h).1

theorem is_intact_iff_position_none (d : Detector) :
    d.is_intact = true ↔ d.position_of_changed_element = none := by
  unfold Detector.is_intact Detector.position_and_value_of_changed_element
  cases h : d.position_of_changed_element with
  | none => simp
  | some i =>
    obtain ⟨b, hb, -⟩ := position_some_mem _ _ _ h
    simp only [Detector.get, hb, Option.map_some', Option.isNone_some]
    simp

theorem position_none_iff_all_default (d : Detector) :
    d.position_of_changed_element = none ↔
      ∀ b ∈ d.detector_mass, b = d.default := by
  unfold Detector.position_of_changed_element
  rw [position_eq_none_iff]
  constructor
  · intro h b hb
    have := h b hb
    simpa using this
  · intro h b hb
    simp [h b hb]

theorem write_default (d : Detector) (x : Nat) :
    (d.write x).default = d.default := rfl

theorem write_mass (d : Detector) (x : Nat) :
    (d.write x).detector_mass = d.detector_mass.map (fun _ => x) := rfl

theorem reset_default (d : Detector) : d.reset.default = d.default := by
  unfold Detector.reset
  by_cases h : d.default = 0 <;> simp [h, Detector.write]

theorem reset_is_intact (d : Detector) : d.reset.is_intact = true := by
  rw [is_intact_iff_position_none, position_none_iff_all_default, reset_default]
  intro b hb
  have hmass : d.reset.detector_mass =
      ((if d.default = 0 then d.write 42 else d).detector_mass).map
        (fun _ => d.default) := rfl
  rw [hmass] at hb
  obtain ⟨a, -, ha⟩ := List.mem_map.mp hb
  exact ha.symm

theorem replicate_get?_of_lt (n v i : Nat) (h : i < n) :
    (List.replicate n v).get? i = some v := by
  induction n generalizing i with
  | zero => exact absurd h (Nat.not_lt_zero i)
  | succ m ih =>
    cases i with
    | zero => rfl
    | succ k => exact ih k (Nat.lt_of_succ_lt_succ h)

theorem volatileScan_snd (c : Nat) (l : List Nat) : (volatileScan c l).2 = l := by
  induction l with
  | nil => rfl
  | cons b rest ih =>
    by_cases h : (b != c) = true
    · simp [volatileScan, h]
    · rw [Bool.not_eq_true] at h
      simp only [volatileScan, h, Bool.false_eq_true, if_false]
      rcases hv : volatileScan c rest with ⟨r, m⟩
      have hm : m = rest := by
        have := ih
        rw [hv] at this
        exact this
      simp [hm]

theorem position_of_changed_elementS_snd (d : Detector) :
    d.position_of_changed_elementS.2 = d := by
  unfold Detector.position_of_changed_elementS
  rcases hv : volatileScan d.default d.detector_mass with ⟨r, m⟩
  have hm : m = d.detector_mass := by
    have := volatileScan_snd d.default d.detector_mass
    rw [hv] at this
    exact this
  simp [hm]

theorem position_and_value_of_changed_elementS_snd (d : Detector) :
    d.position_and_value_of_changed_elementS.2 = d := by
  unfold Detector.position_and_value_of_changed_elementS
  rcases hp : d.position_of_changed_elementS with ⟨r, d1⟩
  have hd1 : d1 = d := by
    have := position_of_changed_elementS_snd d
    rw [hp] at this
    exact this
  cases r with
  | some i => simp [Detector.getS, hd1]
  | none => simp [hd1]

theorem is_intactS_snd (d : Detector) : d.is_intactS.2 = d := by
  unfold Detector.is_intactS
  rcases hp : d.position_and_value_of_changed_elementS with ⟨r, d1⟩
  have hd1 : d1 = d := by
    have := position_and_value_of_changed_elementS_snd d
    rw [hp] at this
    exact this
  simp [hd1]

/-! Claim theorems. -/

/-- C1: `is_intact` is true exactly when every byte of the buffer equals the
default value, and `position_of_changed_element` returns nothing exactly when
`is_intact` is true on the same unmutated buffer state. -/
theorem C1_intact_iff_all_default (d : Detector) :
    (d.is_intact = true ↔ ∀ b ∈ d.detector_mass, b = d.default) ∧
    (d.position_of_changed_element = none ↔ d.is_intact = true) := by
  constructor
  · rw [is_intact_iff_position_none, position_none_iff_all_default]
  · rw [is_intact_iff_position_none]

/-- C2: for every byte value `v` and every `n > 0`, `Detector::new v n` has
length `n` and `get i` returns `v` for every index `i < n`. -/
theorem C2_new_len_get (v n : Nat) (_h : 0 < n) :
    (Detector.new v n).len = n ∧
    ∀ i, i < n → (Detector.new v n).get i = some v := by
  refine ⟨?_, ?_⟩
  · simp [Detector.new, Detector.len]
  · intro i hi
    simpa [Detector.new, Detector.get] using replicate_get?_of_lt n v i hi

/-- Witness for C2 at the concrete input `v = 5`, `n = 3`. -/
theorem C2_new_len_get_witness :
    (Detector.new 5 3).len = 3 ∧ (Detector.new 5 3).get 2 = some 5 :=
  ⟨(C2_new_len_get 5 3 (by decide)).1, (C2_new_len_get 5 3 (by decide)).2 2 (by decide)⟩

/-- C3 counterexample: constructing a detector with capacity 0 does not fail;
`Detector::new` produces a zero-length detector that even reports itself
intact. -/
theorem C3_counterexample_zero_capacity_detector :
    (Detector.new 0 0).len = 0 ∧ (Detector.new 0 0).is_intact = true :=
  ⟨rfl, rfl⟩

/-- C3 amended: `Detector::new` accepts a capacity of 0 and yields a
zero-length detector; the zero-byte request is instead rejected earlier, in
the CLI layer, where the integer branch of `parse_memory_string` maps the
value 0 to a parse error. -/
theorem C3_zero_capacity_rejected_at_parsing (v : Nat) :
    (Detector.new v 0).len = 0 ∧ (Detector.new v 0).is_intact = true ∧
    parse_memory_string_integer 0 = Except.error "zero is not a valid value" :=
  ⟨rfl, rfl, rfl⟩

/-- C4: for every detector and every finite sequence of prior `write` calls,
`reset` followed by `is_intact` returns true. -/
theorem C4_reset_after_writes_intact (d : Detector) (xs : List Nat) :
    ((xs.foldl Detector.write d).reset).is_intact = true :=
  reset_is_intact _

/-- C5 counterexample: on the zero-length detector, `write 1` followed by
`is_intact` returns true even though 1 differs from the default value 0. -/
theorem C5_counterexample_empty_detector :
    ((Detector.new 0 0).write 1).is_intact = true ∧
    ¬((1 : Nat) = (Detector.new 0 0).default) := by
  exact ⟨rfl, by decide⟩

/-- C5 amended: for every detector with a nonempty buffer and every byte
value `x`, after `write x` the detector is intact iff `x` equals the default
value. -/
theorem C5_write_intact_iff (d : Detector) (x : Nat) (h : 0 < d.len) :
    ((d.write x).is_intact = true ↔ x = d.default) := by
  rw [is_intact_iff_position_none, position_none_iff_all_default,
    write_default, write_mass]
  constructor
  · intro hall
    obtain ⟨b, rest, hm⟩ : ∃ b rest, d.detector_mass = b :: rest := by
      cases hm : d.detector_mass with
      | nil =>
        rw [Detector.len, hm] at h
        cases h
      | cons b rest => exact ⟨b, rest, rfl⟩
    apply hall x
    rw [hm]
    exact List.mem_map.mpr ⟨b, List.mem_cons_self b rest, rfl⟩
  · intro hx b hb
    obtain ⟨a, -, ha⟩ := List.mem_map.mp hb
    rw [← ha]
    exact hx

/-- Witness for C5 at the concrete input `d = Detector.new 0 2`, `x = 0`. -/
theorem C5_write_intact_iff_witness :
    0 < (Detector.new 0 2).len ∧
    (((Detector.new 0 2).write 0).is_intact = true ↔
      0 = (Detector.new 0 2).default) :=
  ⟨by decide, C5_write_intact_iff (Detector.new 0 2) 0 (by decide)⟩

set_option maxRecDepth 8192

/-- C6: in the sequential scanning mode, `position_of_changed_element`
returns exactly the lowest index whose byte differs from the default value
(and nothing when no byte differs, by C1); moreover, in the concrete scenario
of a 1024-byte zero detector whose byte at index 517 is externally flipped to
7, `is_intact` is false and `position_and_value_of_changed_element` returns
`(517, 7)`. -/
theorem C6_lowest_index_and_scenario :
    (∀ (d : Detector) (i : Nat),
        d.position_of_changed_element = some i ↔
          ((∃ b, d.get i = some b ∧ b ≠ d.default) ∧
           ∀ j, j < i → ∃ b, d.get j = some b ∧ b = d.default)) ∧
    (({ Detector.new 0 1024 with
        detector_mass := (Detector.new 0 1024).detector_mass.set 517 7
      } : Detector).is_intact = false ∧
     ({ Detector.new 0 1024 with
        detector_mass := (Detector.new 0 1024).detector_mass.set 517 7
      } : Detector).position_and_value_of_changed_element = some (517, 7)) := by
  refine ⟨?_, by decide, by decide⟩
  intro d i
  unfold Detector.position_of_changed_element Detector.get
  rw [position_eq_some_iff]
  simp only [bne_iff_ne, bne_eq_false_iff_eq]

/-- C7: any result admissible for the parallel (rayon `position_any`) scan
agrees with the sequential scan on the existence of a mismatch: the parallel
result is none exactly when the sequential scan returns none. -/
theorem C7_par_seq_agree (d : Detector) (r : Option Nat)
    (h : par_position_any_spec d r) :
    (r = none ↔ d.position_of_changed_element = none) := by
  cases r with
  | none =>
    simp only [par_position_any_spec] at h
    rw [position_none_iff_all_default]
    exact iff_of_true rfl h
  | some i =>
    simp only [par_position_any_spec] at h
    obtain ⟨b, hb, hne⟩ := h
    constructor
    · intro hc
      cases hc
    · intro hpos
      have hall := (position_none_iff_all_default d).mp hpos
      have hmem : b ∈ d.detector_mass := List.get?_mem hb
      exact absurd (hall b hmem) hne

/-- Witness for C7 at the concrete detector with default 0 and buffer
`[0, 5]`, with the parallel scan returning index 1. -/
theorem C7_par_seq_agree_witness :
    par_position_any_spec (Detector.mk 0 [0, 5]) (some 1) ∧
    ((some 1 : Option Nat) = none ↔
      (Detector.mk 0 [0, 5]).position_of_changed_element = none) :=
  ⟨⟨5, rfl, by decide⟩, C7_par_seq_agree (Detector.mk 0 [0, 5]) (some 1) ⟨5, rfl, by decide⟩⟩

/-- C8: the buffer length is fixed: `write` and `reset` preserve it, and the
query operations (in state-passing form) return a detector of the same
length. -/
theorem C8_length_fixed (d : Detector) (x : Nat) :
    (d.write x).len = d.len ∧
    d.reset.len = d.len ∧
    d.is_intactS.2.len = d.len ∧
    d.position_of_changed_elementS.2.len = d.len ∧
    d.position_and_value_of_changed_elementS.2.len = d.len ∧
    (∀ i, (d.getS i).2.len = d.len) ∧
    d.lenS.2.len = d.len ∧
    d.defaultS.2.len = d.len := by
  refine ⟨?_, ?_, ?_, ?_, ?_, ?_, rfl, rfl⟩
  · simp [Detector.write, Detector.len]
  · unfold Detector.reset
    by_cases h : d.default = 0 <;> simp [h, Detector.write, Detector.len]
  · rw [is_intactS_snd]
  · rw [position_of_changed_elementS_snd]
  · rw [position_and_value_of_changed_elementS_snd]
  · intro i
    rfl

/-- C10: the query operations never modify the detector: in the
state-passing embedding, `is_intact`, `position_of_changed_element`,
`position_and_value_of_changed_element`, `get`, `len` and `default` all
return the detector unchanged. -/
theorem C10_queries_do_not_modify (d : Detector) (i : Nat) :
    d.is_intactS.2 = d ∧
    d.position_of_changed_elementS.2 = d ∧
    d.position_and_value_of_changed_elementS.2 = d ∧
    (d.getS i).2 = d ∧
    d.lenS.2 = d ∧
    d.defaultS.2 = d :=
  ⟨is_intactS_snd d, position_of_changed_elementS_snd d,
   position_and_value_of_changed_elementS_snd d, rfl, rfl, rfl⟩

end CosmicRay
